import Mathlib

/-!
Shallow embedding of the core logic of `luet_pm_core.py` (and the duplicated
runners in `luet_pm_gui.py`) from the `luet_pm_gui` repository, together with
theorems settling the specification claims about it.

Python strings are modelled as Lean `String`s, with the Python operations
(slicing, `startswith`, `split`, `strip`) implemented over the code-point list
`String.data`, matching Python's code-point semantics. Subprocess execution,
`json.loads`, Python's `str()` formatting of interpolated values and the
`packaging` version comparison are external effects: they enter the embedding
as explicit function parameters, universally quantified in the theorems.
-/

/-! ## Python string primitives -/

/-- Python `str.startswith(p)`: code-point prefix test. -/
def pyStartswith (s p : String) : Bool :=
  p.data.isPrefixOf s.data

/-- Python slicing `s[n:]`: drop the first `n` code points. -/
def pyDrop (s : String) (n : Nat) : String :=
  ⟨s.data.drop n⟩

/-- Python `str.isspace` characters relevant to `strip()` / `\S` (ASCII range;
the exotic Unicode whitespace code points do not occur in `luet` output). -/
def pyIsSpace (c : Char) : Bool :=
  c == ' ' || c == '\t' || c == '\n' || c == '\r' || c == '\x0b' || c == '\x0c'

/-- Python `str.strip()` on a code-point list. -/
def pyTrim (cs : List Char) : List Char :=
  ((cs.dropWhile pyIsSpace).reverse.dropWhile pyIsSpace).reverse

/-- Python `str.strip()`. -/
def pyStrip (s : String) : String :=
  ⟨pyTrim s.data⟩

/-- Python `s.split(c)` for a single-character separator, on code-point lists:
splits at every occurrence of `c`, keeping empty pieces. -/
def splitCh (c : Char) : List Char → List (List Char)
  | [] => [[]]
  | x :: xs =>
    match splitCh c xs with
    | [] => [[x]]
    | h :: t => if x == c then [] :: h :: t else (x :: h) :: t

/-! ## Subprocess model

`subprocess.run` either yields a completed-process result or raises
`FileNotFoundError`; `subprocess.Popen` + `readline` + `wait` either streams
some lines and an exit code, or raises after streaming a prefix of the lines. -/

/-- The fields of a `subprocess.run` result that the repository uses (also the
shape of the ad-hoc `_Res` object built on `FileNotFoundError`). -/
structure SyncResult where
  returncode : Int
  stdout : String
  stderr : String
deriving DecidableEq, Repr

/-- Outcome of one `subprocess.run` call. -/
inductive SubprocOutcome where
  | ok (res : SyncResult)
  | fileNotFound (msg : String)
deriving DecidableEq, Repr

/-- The environment's behaviour of `subprocess.run`, per argument vector. -/
abbrev SubprocModel := List String → SubprocOutcome

/-- Behaviour of a spawned realtime process: either it is started, streams
`lines` and exits with `exitCode`, or an exception is raised (at `Popen`, in
the read loop, or at `wait`) after `partialLines` were already streamed. -/
inductive ProcBehavior where
  | ok (lines : List String) (exitCode : Int)
  | fail (partialLines : List String) (errMsg : String)

/-- The environment's behaviour of `subprocess.Popen`, per argument vector. -/
abbrev SpawnModel := List String → ProcBehavior

/-- A callback scheduled on the UI thread by `run_realtime` (via
`schedule_callback` / `GLib.idle_add`): either `on_line_received line` or
`on_finished code`. -/
inductive Event where
  | line (s : String)
  | finished (code : Int)
deriving DecidableEq, Repr

/-- Python truthiness of the `elevation_cmd` attribute (`None` or a list):
`if self.elevation_cmd:` is false for `None` and for the empty list. -/
def pyTruthyList (e : Option (List String)) : Bool :=
  match e with
  | some l => !l.isEmpty
  | none => false

/-! ## CommandRunner (`luet_pm_core.py` lines 145-223) -/

/-- The `try/except FileNotFoundError` around `subprocess.run` in `run_sync`:
on `FileNotFoundError` an ad-hoc result with `returncode = 1`, empty stdout and
the error message as stderr is returned. -/
def CommandRunner.syncExec (run : SubprocModel) (argv : List String) : SyncResult :=
  match run argv with
  | .ok r => r
  | .fileNotFound msg => { returncode := 1, stdout := "", stderr := msg }

/-- `CommandRunner.run_sync` (lines 159-177). `Except.error` models the
`RuntimeError("No elevation helper available")` raise. -/
def CommandRunner.run_sync (run : SubprocModel) (elevation_cmd : Option (List String))
    (uid : Nat) (cmd_list : List String) (require_root : Bool) :
    Except String SyncResult :=
  let final := cmd_list
  if require_root && uid != 0 then
    if pyTruthyList elevation_cmd then
      Except.ok (CommandRunner.syncExec run (elevation_cmd.getD [] ++ final))
    else
      Except.error "No elevation helper available"
  else
    Except.ok (CommandRunner.syncExec run final)

/-- The log-level stripping applied to each streamed line in `run_realtime`
(lines 201-208): `line[5:]` after `" INFO "` / `" WARN "`, `line[6:]` after
`" ERROR "`. -/
def stripLogLevel (line : String) : String :=
  if pyStartswith line " INFO " then pyDrop line 5
  else if pyStartswith line " WARN " then pyDrop line 5
  else if pyStartswith line " ERROR " then pyDrop line 6
  else line

/-- The body of `thread_func` in `run_realtime` (lines 192-220), as the list of
callbacks it schedules, in order. -/
def CommandRunner.threadFunc (spawn : SpawnModel) (argv : List String) : List Event :=
  match spawn argv with
  | .ok lines code =>
    lines.map (fun l => Event.line (stripLogLevel l)) ++ [Event.finished code]
  | .fail partialLines msg =>
    partialLines.map (fun l => Event.line (stripLogLevel l)) ++
      [Event.line ("\nError executing command: " ++ msg ++ "\n"), Event.finished (-1)]

/-- `CommandRunner.run_realtime` (lines 179-223), as the ordered list of
callbacks scheduled on the UI thread. -/
def CommandRunner.run_realtime (spawn : SpawnModel) (elevation_cmd : Option (List String))
    (uid : Nat) (cmd_list : List String) (require_root : Bool) : List Event :=
  let final := cmd_list
  if require_root && uid != 0 then
    if pyTruthyList elevation_cmd then
      CommandRunner.threadFunc spawn (elevation_cmd.getD [] ++ final)
    else
      [Event.finished (-1)]
  else
    CommandRunner.threadFunc spawn final

/-- Specification-side helper: the argument vector `run_realtime` hands to
`Popen`, or `none` when root is required but no elevation helper is available. -/
def CommandRunner.realtimeArgv (elevation_cmd : Option (List String)) (uid : Nat)
    (cmd_list : List String) (require_root : Bool) : Option (List String) :=
  if require_root && uid != 0 then
    if pyTruthyList elevation_cmd then some (elevation_cmd.getD [] ++ cmd_list) else none
  else
    some cmd_list

/-! ## Spinner (`luet_pm_core.py` lines 57-100) -/

namespace Spinner

/-- `Spinner.FRAMES`. -/
def FRAMES : List String := ["⠋", "⠙", "⠹", "⠸", "⠼", "⠴", "⠦", "⠧", "⠇", "⠏"]

/-- The mutable state of a `Spinner` instance (`self._frame_index`). -/
structure State where
  frame_index : Nat
deriving DecidableEq, Repr

/-- `Spinner.__init__`. -/
def init : State := ⟨0⟩

/-- `Spinner.get_current_frame`: Python list indexing, `none` models an
`IndexError`. -/
def get_current_frame (s : State) : Option String :=
  FRAMES[s.frame_index]?

/-- `Spinner.advance`: step the index modulo `len(self.FRAMES)` and return the
new current frame. -/
def advance (s : State) : State × Option String :=
  let s' : State := ⟨(s.frame_index + 1) % FRAMES.length⟩
  (s', get_current_frame s')

/-- Alias `next_frame = advance` in the source. -/
def next_frame : State → State × Option String := advance

/-- Alias `get_next_frame = advance` in the source. -/
def get_next_frame : State → State × Option String := advance

/-- State after `n` calls of `advance` on a freshly constructed spinner. -/
def stateAfter : Nat → State
  | 0 => init
  | n + 1 => (advance (stateAfter n)).1

end Spinner

/-! ## PackageFilter (`luet_pm_core.py` lines 229-324) -/

namespace PackageFilter

/-- `PackageFilter.get_protected_packages` (the dict, as a key-value list in
source order). -/
def get_protected_packages : List (String × String) :=
  [ ("apps/grub", "This package is protected and can't be removed"),
    ("system/kernel-updater", "This package is protected and can't be removed"),
    ("system/luet", "This package is protected and can't be removed"),
    ("layers/system-x", "This layer is protected and can't be removed"),
    ("layers/sys-fs", "This layer is protected and can't be removed"),
    ("layers/X", "This layer is protected and can't be removed") ]

/-- `PackageFilter.get_hidden_packages` (the dict, as a key-value list in
source order). -/
def get_hidden_packages : List (String × String) :=
  [ ("repository/mocaccino-desktop", "Devel repository"),
    ("repository/mocaccino-os-commons", "Devel repository"),
    ("repository/mocaccino-extra", "Devel repository"),
    ("repository/mocaccino-community", "Devel repository"),
    ("repository/luet", "This repository is crucial and can't be removed"),
    ("repository/mocaccino-repository-index", "This repository is crucial and can't be removed"),
    ("repository/mocaccino-desktop-stable", "Stable repository can't be removed"),
    ("repository/mocaccino-os-commons-stable", "Stable repository can't be removed"),
    ("repository/mocaccino-extra-stable", "Stable repository can't be removed"),
    ("repository/livecd", "This repository should be hidden"),
    ("repository/mocaccino-stage3", "Old repository, not in use anymore"),
    ("repository/mocaccino-portage", "Old repository, not in use anymore"),
    ("repository/mocaccino-portage-stable", "Old repository, not in use anymore"),
    ("repository/mocaccino-kernel", "Old repository, not in use anymore"),
    ("repository/mocaccino-kernel-stable", "Old repository, not in use anymore"),
    ("repository/mocaccino-extra-arm", "Old repository, not in use anymore"),
    ("repository/mocaccino-musl-universe", "Hide musl repo"),
    ("repository/mocaccino-musl-universe-stable", "Hide musl repo"),
    ("repository/mocaccino-micro", "Hide micro repo"),
    ("repository/mocaccino-micro-stable", "Hide micro repo"),
    ("repo-updater/mocaccino-micro-stable", "Hide micro repo-updater"),
    ("repo-updater/mocaccino-desktop-stable", "Hide desktop repo-updater"),
    ("repo-updater/mocaccino-community-stable", "Hide desktop repo-updater"),
    ("kernel-5.9/debian-full", "Old repository, not in use anymore") ]

/-- `PackageFilter.is_package_hidden` (lines 284-298): `category == "entity"`
short-circuits to `True`; otherwise membership of `"category/name"` in the
hidden table. -/
def is_package_hidden (category name : String) : Bool :=
  if category == "entity" then
    true
  else
    let key := category ++ "/" ++ name
    (get_hidden_packages.lookup key).isSome

/-- `PackageFilter.is_package_protected` (lines 300-311). -/
def is_package_protected (category name : String) : Bool :=
  let key := category ++ "/" ++ name
  (get_protected_packages.lookup key).isSome

end PackageFilter

/-! ## Python/JSON values and dictionaries

JSON values as decoded by `json.loads` (JSON `null` decodes to Python `None`,
modelled by `Json.null`). A decoded JSON object, and likewise the package
dictionaries the repository manipulates, is an insertion-ordered key-value
list. -/

inductive Json where
  | null
  | bool (b : Bool)
  | num (n : Int)
  | str (s : String)
  | arr (elems : List Json)
  | obj (fields : List (String × Json))

/-- A Python dictionary with string keys (package dicts, search-result dicts). -/
abbrev PyDict := List (String × Json)

/-- Python `d.get(k)` / `d[k]` presence: the value under the first matching
key. -/
def dictGet (d : PyDict) (k : String) : Option Json :=
  match d with
  | [] => none
  | (k', v) :: rest => if k' == k then some v else dictGet rest k

/-- Python `d[k] = v`: replace the value at an existing key in place, else
append a new entry. -/
def dictSet (d : PyDict) (k : String) (v : Json) : PyDict :=
  match d with
  | [] => [(k, v)]
  | (k', v') :: rest => if k' == k then (k, v) :: rest else (k', v') :: dictSet rest k v

/-- Python `k in d`. -/
def hasKey (d : PyDict) (k : String) : Bool :=
  (dictGet d k).isSome

/-- Python truthiness of a decoded JSON value (`if x:`). -/
def pyTruthy (j : Json) : Bool :=
  match j with
  | .null => false
  | .bool b => b
  | .num n => n != 0
  | .str s => !s.data.isEmpty
  | .arr l => !l.isEmpty
  | .obj l => !l.isEmpty

/-- Python `value == "entity"`-style comparison of a decoded value with a
string literal: only equal strings compare equal. -/
def Json.isStrEq (j : Json) (s : String) : Bool :=
  match j with
  | .str t => t == s
  | _ => false

/-- The environment's behaviour of `json.loads`: a decoded value, or `none`
when `json.JSONDecodeError` is raised. -/
abbrev JsonLoads := String → Option Json

/-- The environment's behaviour of Python string interpolation `f"{v}"` /
`"{}".format(v)` on a decoded value. Interpolating an actual `str` yields the
string itself; that is the only fact the theorems assume about it. -/
abbrev PyFormat := Json → String

/-! ## PackageSearcher (`luet_pm_core.py` lines 656-681) -/

/-- `PackageSearcher.run_search_core`. The injected `command_runner_sync` may
raise (`Except.error`, e.g. `RuntimeError` from `run_sync`); any such
exception, like a non-zero return code, lands in the error dictionary. The
returned Python dict literal is a one-entry `PyDict`. -/
def PackageSearcher.run_search_core (loads : JsonLoads)
    (command_runner_sync : List String → Except String SyncResult)
    (search_command : List String) : PyDict :=
  match command_runner_sync search_command with
  | .error _ => [("error", Json.str "Error executing the search command")]
  | .ok res =>
    if res.returncode != 0 then
      [("error", Json.str "Error executing the search command")]
    else
      let output := pyStrip res.stdout
      if output == "" then
        [("packages", Json.arr [])]
      else
        match loads output with
        | none => [("error", Json.str "Invalid JSON output")]
        | some data =>
          match data with
          | .obj fields =>
            match dictGet fields "packages" with
            | none => [("packages", Json.arr [])]
            | some Json.null => [("packages", Json.arr [])]
            | some v => [("packages", v)]
          | _ => [("packages", Json.arr [])]

/-! ## PackageFilter on decoded values (as called from `SearchProcessor`)

`_enrich_package_info` passes the raw `pkg.get("category")` / `pkg.get("name")`
values (any decoded JSON value) to the filter predicates, which compare with
`==` and interpolate with `"{}/{}".format(...)`. -/

/-- `PackageFilter.is_package_hidden` applied to decoded values, `fmt`
modelling Python string interpolation. -/
def PackageFilter.is_package_hidden_val (fmt : PyFormat) (category name : Json) : Bool :=
  if category.isStrEq "entity" then
    true
  else
    let key := fmt category ++ "/" ++ fmt name
    (PackageFilter.get_hidden_packages.lookup key).isSome

/-- `PackageFilter.is_package_protected` applied to decoded values. -/
def PackageFilter.is_package_protected_val (fmt : PyFormat) (category name : Json) : Bool :=
  let key := fmt category ++ "/" ++ fmt name
  (PackageFilter.get_protected_packages.lookup key).isSome

/-! ## SearchProcessor (`luet_pm_core.py` lines 686-735) -/

/-- The behaviour of `packaging.version`: `verGT av iv` models
`pkg_version.parse(av) > pkg_version.parse(iv)`, with `none` for an
`InvalidVersion`/`TypeError` raise (the `pass` branch). -/
abbrev VersionCompare := Json → Json → Option Bool

/-- `SearchProcessor._enrich_package_info` (lines 704-735).
`packagingAvailable` models whether `from packaging import version` succeeds. -/
def SearchProcessor._enrich_package_info (fmt : PyFormat) (packagingAvailable : Bool)
    (verGT : VersionCompare) (pkg : PyDict) (installed_packages_dict : PyDict) : PyDict :=
  let category := (dictGet pkg "category").getD (Json.str "")
  let name := (dictGet pkg "name").getD (Json.str "")
  let key := fmt category ++ "/" ++ fmt name
  let pkg1 := dictSet pkg "upgrade_symbol" (Json.str "")
  let pkg2 := dictSet pkg1 "is_actually_installed" (Json.bool false)
  let pkg3 := dictSet pkg2 "installed_version" (Json.str "")
  let pkg4 := dictSet pkg3 "available_version" ((dictGet pkg3 "version").getD (Json.str ""))
  let pkg5 := dictSet pkg4 "protected"
    (Json.bool (PackageFilter.is_package_protected_val fmt category name))
  match dictGet installed_packages_dict key with
  | none => pkg5
  | some installed_version =>
    let pkg6 := dictSet pkg5 "is_actually_installed" (Json.bool true)
    let pkg7 := dictSet pkg6 "installed_version" installed_version
    if packagingAvailable then
      let available_version := dictGet pkg7 "version"
      if pyTruthy installed_version &&
          (match available_version with | some av => pyTruthy av | none => false) then
        match verGT (available_version.getD Json.null) installed_version with
        | some true => dictSet pkg7 "upgrade_symbol" (Json.str "↑")
        | _ => pkg7
      else
        pkg7
    else
      pkg7

/-- The `for pkg in ...` loop of `process_search_results` (lines 695-699):
enrich each package, keep it unless `is_package_hidden` holds of its
(post-enrichment) `category`/`name` entries. -/
def SearchProcessor.processPkgs (fmt : PyFormat) (packagingAvailable : Bool)
    (verGT : VersionCompare) (pkgs : List PyDict) (installed : PyDict) : List PyDict :=
  match pkgs with
  | [] => []
  | pkg :: rest =>
    let pkg := SearchProcessor._enrich_package_info fmt packagingAvailable verGT pkg installed
    let tail := SearchProcessor.processPkgs fmt packagingAvailable verGT rest installed
    if !(PackageFilter.is_package_hidden_val fmt
          ((dictGet pkg "category").getD (Json.str ""))
          ((dictGet pkg "name").getD (Json.str ""))) then
      pkg :: tail
    else
      tail

/-- Python iteration over `search_result.get("packages", [])` down to the
`pkg.get(...)` calls of `_enrich_package_info`: yields the element dicts of a
list of dicts. `none` models an uncaught raise: iterating an `int`/`bool`/
`None` raises `TypeError`; an element (or, for a non-empty `str` / `dict`, an
iterated character or key) that is not a dict raises in `pkg.get`. Iterating
an empty `str` or empty `dict` yields nothing. -/
def pyIterObjs : Json → Option (List PyDict)
  | .arr elems =>
    elems.foldr
      (fun e acc =>
        match e, acc with
        | .obj d, some ds => some (d :: ds)
        | _, _ => none)
      (some [])
  | .str s => match s.data with | [] => some [] | _ => none
  | .obj fields => match fields with | [] => some [] | _ => none
  | _ => none

/-- `SearchProcessor.process_search_results` (lines 689-702). `none` models an
uncaught exception (malformed `"packages"` value). -/
def SearchProcessor.process_search_results (fmt : PyFormat) (packagingAvailable : Bool)
    (verGT : VersionCompare) (search_result : PyDict) (installed_packages_dict : PyDict) :
    Option PyDict :=
  if hasKey search_result "error" then
    some search_result
  else
    match pyIterObjs ((dictGet search_result "packages").getD (Json.arr [])) with
    | none => none
    | some pkgs =>
      let processed := SearchProcessor.processPkgs fmt packagingAvailable verGT
        pkgs installed_packages_dict
      some (dictSet search_result "packages" (Json.arr (processed.map Json.obj)))

/-! ## SystemChecker._parse_reinstall_candidates (`luet_pm_core.py` lines 368-387)

The source scans each stripped line with `re.compile(r"(\S+/\S+)").search`.
That pattern's semantics admit a direct characterisation: a match attempt at
position `p` succeeds iff the maximal `\S`-run starting at `p` contains a `/`
that is neither its first nor its last character (the first greedy `\S+` needs
at least one character before the `/`, the second at least one after); when it
succeeds, backtracking picks the last such `/` and the second greedy `\S+`
extends to the end of the run, so the matched group is the entire run. A
mid-run start position imposes a strictly stronger constraint than the run's
start, so the leftmost successful attempt is the start of the first
whitespace-delimited token containing an interior `/`, and `group(1)` is that
whole token. -/

/-- The maximal whitespace-free runs of a line, in order (the candidate
`\S+`-runs). `List.splitOnP` cuts at every whitespace character, so the
non-empty pieces are exactly the maximal runs. -/
def tokensOf (cs : List Char) : List (List Char) :=
  (List.splitOnP pyIsSpace cs).filter (fun t => !t.isEmpty)

/-- Does a token contain a `/` at an interior position (neither first nor last
character)? -/
def hasInteriorSlash (t : List Char) : Bool :=
  ((t.drop 1).dropLast).contains '/'

/-- `re.search(r"(\S+/\S+)", line)` and `match.group(1)`, per the
characterisation above. -/
def regexSearchGroup (cs : List Char) : Option (List Char) :=
  (tokensOf cs).find? hasInteriorSlash

/-- The per-line body of the `for line in output.split('\n')` loop: strip the
line, search it, split the matched token at the first `:`, split at `/`,
take `parts[-2]` and `parts[-1]`, truncate the latter at its first `-`, and
form `"category/name"`; `none` when no key is recorded for the line. -/
def parseLineCandidate (line : List Char) : Option String :=
  let stripped := pyTrim line
  match regexSearchGroup stripped with
  | none => none
  | some tok =>
    let full_pkg_id := (splitCh ':' tok).headD []
    let parts := splitCh '/' full_pkg_id
    match parts.reverse with
    | pkg_name_with_version :: category :: _ =>
      let pkg_name_only := (splitCh '-' pkg_name_with_version).headD []
      let full_name := category ++ '/' :: pkg_name_only
      if full_name.isEmpty then none else some ⟨full_name⟩
    | _ => none

/-- The keys of `candidates` in insertion order: Python dict assignment keeps
the first occurrence's position, so repeated keys are dropped. -/
def dedupAux : List String → List String → List String
  | [], _ => []
  | k :: ks, seen =>
    if seen.contains k then dedupAux ks seen else k :: dedupAux ks (k :: seen)

/-- First-occurrence deduplication (the key set of the `candidates` dict). -/
def dedupKeys (l : List String) : List String :=
  dedupAux l []

/-- Python string `<=`: code-point lexicographic comparison (what `sorted`
orders by). -/
def strLe (a b : String) : Bool :=
  !(decide (b.data < a.data))

/-- Insert into a `strLe`-sorted list. -/
def insertSorted (a : String) : List String → List String
  | [] => [a]
  | b :: bs => if strLe a b then a :: b :: bs else b :: insertSorted a bs

/-- `sorted(...)` on strings: since the keys are distinct, any sorting
algorithm yields the unique ascending ordering; insertion sort is used here. -/
def sortStrings : List String → List String
  | [] => []
  | a :: as => insertSorted a (sortStrings as)

/-- `SystemChecker._parse_reinstall_candidates`: collect a candidate per
matching line into the `candidates` dict, return `sorted(candidates.keys())`. -/
def SystemChecker._parse_reinstall_candidates (output : String) : List String :=
  let lines := splitCh '\n' output.data
  let cands := lines.filterMap parseLineCandidate
  sortStrings (dedupKeys cands)

/-! ## GUI-layer duplicated runners (`luet_pm_gui.py` lines 1027-1091)

`SearchApp.run_command` and `SearchApp.run_command_realtime` textually
duplicate the core `CommandRunner` logic, with `GLib.idle_add` as the
scheduling function. -/

namespace SearchApp

/-- `SearchApp.run_command` (luet_pm_gui.py lines 1027-1046). -/
def run_command (run : SubprocModel) (elevation_cmd : Option (List String))
    (uid : Nat) (cmd_list : List String) (require_root : Bool) :
    Except String SyncResult :=
  let final := cmd_list
  if require_root && uid != 0 then
    if pyTruthyList elevation_cmd then
      Except.ok
        (match run (elevation_cmd.getD [] ++ final) with
         | .ok r => r
         | .fileNotFound msg => { returncode := 1, stdout := "", stderr := msg })
    else
      Except.error "No elevation helper available"
  else
    Except.ok
      (match run final with
       | .ok r => r
       | .fileNotFound msg => { returncode := 1, stdout := "", stderr := msg })

/-- The `thread_func` body of `SearchApp.run_command_realtime` (luet_pm_gui.py
lines 1060-1086), as the ordered list of callbacks passed to `GLib.idle_add`. -/
def threadFunc (spawn : SpawnModel) (argv : List String) : List Event :=
  match spawn argv with
  | .ok lines code =>
    lines.map (fun l => Event.line (stripLogLevel l)) ++ [Event.finished code]
  | .fail partialLines msg =>
    partialLines.map (fun l => Event.line (stripLogLevel l)) ++
      [Event.line ("\nError executing command: " ++ msg ++ "\n"), Event.finished (-1)]

/-- `SearchApp.run_command_realtime` (luet_pm_gui.py lines 1048-1091). -/
def run_command_realtime (spawn : SpawnModel) (elevation_cmd : Option (List String))
    (uid : Nat) (cmd_list : List String) (require_root : Bool) : List Event :=
  let final := cmd_list
  if require_root && uid != 0 then
    if pyTruthyList elevation_cmd then
      SearchApp.threadFunc spawn (elevation_cmd.getD [] ++ final)
    else
      [Event.finished (-1)]
  else
    SearchApp.threadFunc spawn final

end SearchApp

/-! ## Concrete environments used by the witness theorems -/

/-- A subprocess model in which every command succeeds. -/
def runOkW : SubprocModel := fun _ => SubprocOutcome.ok ⟨0, "out", ""⟩

/-- A subprocess model in which every executable is missing. -/
def runFnfW : SubprocModel := fun _ => SubprocOutcome.fileNotFound "[Errno 2] No such file or directory"

/-- A spawn model streaming one INFO-prefixed line and exiting with 0. -/
def spawnOkW : SpawnModel := fun _ => ProcBehavior.ok [" INFO installed\n"] 0

/-- A spawn model that raises at `Popen`. -/
def spawnFailW : SpawnModel := fun _ => ProcBehavior.fail [] "boom"

/-- A `json.loads` model that raises on every input. -/
def loadsNoneW : JsonLoads := fun _ => none

/-- A `json.loads` model returning a fixed packages object. -/
def loadsObjW : JsonLoads := fun _ => some (Json.obj [("packages", Json.arr [Json.num 1])])

/-- A sync runner returning exit code 0 and whitespace-only stdout. -/
def runnerWsW : List String → Except String SyncResult := fun _ => Except.ok ⟨0, " ", ""⟩

/-- A sync runner returning a non-zero exit code. -/
def runnerErrW : List String → Except String SyncResult := fun _ => Except.ok ⟨2, "", "boom"⟩

/-- A sync runner returning exit code 0 and fixed JSON stdout. -/
def runnerJsonW : List String → Except String SyncResult :=
  fun _ => Except.ok ⟨0, "\x7b\"packages\": [1]\x7d", ""⟩

/-- A Python-interpolation model: the identity on strings. -/
def fmtW : PyFormat := fun j => match j with | .str s => s | _ => ""

/-- A version-comparison model that never reports an upgrade. -/
def verGTW : VersionCompare := fun _ _ => some false

/-- A concrete search-result package. -/
def pkgW : PyDict :=
  [("category", Json.str "apps"), ("name", Json.str "firefox"), ("version", Json.str "2.0")]

/-- A concrete search result containing `pkgW`. -/
def srW : PyDict := [("packages", Json.arr [Json.obj pkgW])]

/-- A concrete installed-packages dict containing `pkgW`'s key. -/
def installedW : PyDict := [("apps/firefox", Json.str "1.0")]

/-- `pkgW` after enrichment against `installedW`. -/
def enrichedW : PyDict :=
  SearchProcessor._enrich_package_info fmtW true verGTW pkgW installedW

/-- A concrete `luet oscheck`-style output line. -/
def oscheckW : String := " mF files missing from apps/foo-1.2:deadbeef\n nothing here\n"

/-!
# Theorems

Helper lemmas first, then one theorem per claim (with witnesses and
counterexamples as separate closed theorems).
-/

/-- Destructing a successful Python `startswith`: the string is the tested
prefix followed by a rest. -/
theorem pyStartswith_dest {l p : String} (h : pyStartswith l p = true) :
    ∃ rest, l.data = p.data ++ rest := by
  unfold pyStartswith at h
  obtain ⟨t, ht⟩ := List.isPrefixOf_iff_prefix.mp h
  exact ⟨t, ht.symm⟩

/-- C1: when root is required, the caller is not root and an elevation command
is configured, `run_sync` and `run_realtime` execute `elevation_cmd ++
cmd_list`; when root is not required or the caller is root, they execute
`cmd_list` unchanged. -/
theorem claim_C1 (run : SubprocModel) (spawn : SpawnModel)
    (elevation_cmd : Option (List String)) (uid : Nat) (cmd_list : List String)
    (require_root : Bool) :
    (require_root = true → uid ≠ 0 → pyTruthyList elevation_cmd = true →
      CommandRunner.run_sync run elevation_cmd uid cmd_list require_root
        = Except.ok (CommandRunner.syncExec run (elevation_cmd.getD [] ++ cmd_list)) ∧
      CommandRunner.run_realtime spawn elevation_cmd uid cmd_list require_root
        = CommandRunner.threadFunc spawn (elevation_cmd.getD [] ++ cmd_list)) ∧
    (require_root = false ∨ uid = 0 →
      CommandRunner.run_sync run elevation_cmd uid cmd_list require_root
        = Except.ok (CommandRunner.syncExec run cmd_list) ∧
      CommandRunner.run_realtime spawn elevation_cmd uid cmd_list require_root
        = CommandRunner.threadFunc spawn cmd_list) := by
  constructor
  · intro hr hu he
    subst hr
    have hb : (uid != 0) = true := by simpa using hu
    constructor
    · simp [CommandRunner.run_sync, hb, he]
    · simp [CommandRunner.run_realtime, hb, he]
  · intro h
    rcases h with h | h
    · subst h
      constructor
      · simp [CommandRunner.run_sync]
      · simp [CommandRunner.run_realtime]
    · subst h
      constructor
      · simp [CommandRunner.run_sync]
      · simp [CommandRunner.run_realtime]

/-- C1 witness: concrete elevated invocation. -/
theorem claim_C1_witness :
    CommandRunner.run_sync runOkW (some ["pkexec"]) 1000 ["luet"] true
      = Except.ok (CommandRunner.syncExec runOkW ((some ["pkexec"]).getD [] ++ ["luet"])) ∧
    CommandRunner.run_realtime spawnOkW (some ["pkexec"]) 1000 ["luet"] true
      = CommandRunner.threadFunc spawnOkW ((some ["pkexec"]).getD [] ++ ["luet"]) :=
  (claim_C1 runOkW spawnOkW (some ["pkexec"]) 1000 ["luet"] true).1 rfl (by decide) (by decide)

/-- C2 counterexample: a line starting with `" INFO "` is delivered with a
leading space left over, not with the entire six-character prefix stripped. -/
theorem claim_C2_counterexample :
    CommandRunner.run_realtime spawnOkW none 0 ["luet"] false
      = [Event.line " installed\n", Event.finished 0] ∧
    (" installed\n" : String) ≠ "installed\n" := by
  constructor
  · decide
  · decide

/-- C2 (amended): each delivered line is `stripLogLevel` of the raw line; a
line starting with `" INFO "` or `" WARN "` loses its first five characters
and a line starting with `" ERROR "` its first six, so in each case a single
leading space remains of the prefix; every other line is delivered unchanged. -/
theorem claim_C2_amended (l : String) :
    (pyStartswith l " INFO " = true →
      stripLogLevel l = " " ++ pyDrop l 6) ∧
    (pyStartswith l " INFO " = false → pyStartswith l " WARN " = true →
      stripLogLevel l = " " ++ pyDrop l 6) ∧
    (pyStartswith l " INFO " = false → pyStartswith l " WARN " = false →
      pyStartswith l " ERROR " = true → stripLogLevel l = " " ++ pyDrop l 7) ∧
    (pyStartswith l " INFO " = false → pyStartswith l " WARN " = false →
      pyStartswith l " ERROR " = false → stripLogLevel l = l) ∧
    (∀ code, CommandRunner.run_realtime (fun _ => ProcBehavior.ok [l] code) none 0 [] false
      = [Event.line (stripLogLevel l), Event.finished code]) := by
  refine ⟨?_, ?_, ?_, ?_, fun _ => rfl⟩
  · intro h
    obtain ⟨rest, hr⟩ := pyStartswith_dest h
    have hif : stripLogLevel l = pyDrop l 5 := by simp [stripLogLevel, h]
    rw [hif]
    apply String.ext
    show l.data.drop 5 = ' ' :: l.data.drop 6
    rw [hr]
    rfl
  · intro h0 h
    obtain ⟨rest, hr⟩ := pyStartswith_dest h
    have hif : stripLogLevel l = pyDrop l 5 := by simp [stripLogLevel, h0, h]
    rw [hif]
    apply String.ext
    show l.data.drop 5 = ' ' :: l.data.drop 6
    rw [hr]
    rfl
  · intro h0 h1 h
    obtain ⟨rest, hr⟩ := pyStartswith_dest h
    have hif : stripLogLevel l = pyDrop l 6 := by simp [stripLogLevel, h0, h1, h]
    rw [hif]
    apply String.ext
    show l.data.drop 6 = ' ' :: l.data.drop 7
    rw [hr]
    rfl
  · intro h0 h1 h2
    simp [stripLogLevel, h0, h1, h2]

/-- C2 witness: the amended statement evaluated on a concrete INFO line. -/
theorem claim_C2_witness :
    pyStartswith " INFO hello\n" " INFO " = true ∧
    stripLogLevel " INFO hello\n" = " " ++ pyDrop " INFO hello\n" 6 :=
  ⟨by decide, (claim_C2_amended " INFO hello\n").1 (by decide)⟩

/-- C7: `run_realtime`'s schedule always consists of line callbacks followed
by exactly one final `on_finished`; a completed process reports its exit code,
a missing elevation helper or a raise reports `-1`. -/
theorem claim_C7 (spawn : SpawnModel) (elevation_cmd : Option (List String))
    (uid : Nat) (cmd_list : List String) (require_root : Bool) :
    (∃ evs code, CommandRunner.run_realtime spawn elevation_cmd uid cmd_list require_root
        = evs ++ [Event.finished code] ∧ ∀ e ∈ evs, ∃ s, e = Event.line s) ∧
    (CommandRunner.realtimeArgv elevation_cmd uid cmd_list require_root = none →
      CommandRunner.run_realtime spawn elevation_cmd uid cmd_list require_root
        = [Event.finished (-1)]) ∧
    (∀ argv, CommandRunner.realtimeArgv elevation_cmd uid cmd_list require_root = some argv →
      (∀ lines code, spawn argv = ProcBehavior.ok lines code →
        CommandRunner.run_realtime spawn elevation_cmd uid cmd_list require_root
          = lines.map (fun l => Event.line (stripLogLevel l)) ++ [Event.finished code]) ∧
      (∀ pls msg, spawn argv = ProcBehavior.fail pls msg →
        CommandRunner.run_realtime spawn elevation_cmd uid cmd_list require_root
          = pls.map (fun l => Event.line (stripLogLevel l)) ++
              [Event.line ("\nError executing command: " ++ msg ++ "\n"),
               Event.finished (-1)])) := by
  have hthread : ∀ argv, ∃ evs code,
      CommandRunner.threadFunc spawn argv = evs ++ [Event.finished code] ∧
        ∀ e ∈ evs, ∃ s, e = Event.line s := by
    intro argv
    unfold CommandRunner.threadFunc
    cases h : spawn argv with
    | ok lines code =>
      refine ⟨lines.map (fun l => Event.line (stripLogLevel l)), code, rfl, ?_⟩
      intro e he
      obtain ⟨l, _, hl⟩ := List.mem_map.mp he
      exact ⟨stripLogLevel l, hl.symm⟩
    | fail pls msg =>
      refine ⟨pls.map (fun l => Event.line (stripLogLevel l)) ++
        [Event.line ("\nError executing command: " ++ msg ++ "\n")], -1, by simp, ?_⟩
      intro e he
      rcases List.mem_append.mp he with he | he
      · obtain ⟨l, _, hl⟩ := List.mem_map.mp he
        exact ⟨stripLogLevel l, hl.symm⟩
      · simp at he
        exact ⟨_, he⟩
  have hok : ∀ argv lines code, spawn argv = ProcBehavior.ok lines code →
      CommandRunner.threadFunc spawn argv
        = lines.map (fun l => Event.line (stripLogLevel l)) ++ [Event.finished code] := by
    intro argv lines code h
    unfold CommandRunner.threadFunc
    rw [h]
  have hfail : ∀ argv pls msg, spawn argv = ProcBehavior.fail pls msg →
      CommandRunner.threadFunc spawn argv
        = pls.map (fun l => Event.line (stripLogLevel l)) ++
            [Event.line ("\nError executing command: " ++ msg ++ "\n"),
             Event.finished (-1)] := by
    intro argv pls msg h
    unfold CommandRunner.threadFunc
    rw [h]
  by_cases hroot : (require_root && uid != 0) = true
  · by_cases helev : pyTruthyList elevation_cmd = true
    · have hrr : CommandRunner.run_realtime spawn elevation_cmd uid cmd_list require_root
          = CommandRunner.threadFunc spawn (elevation_cmd.getD [] ++ cmd_list) := by
        simp [CommandRunner.run_realtime, hroot, helev]
      have hra : CommandRunner.realtimeArgv elevation_cmd uid cmd_list require_root
          = some (elevation_cmd.getD [] ++ cmd_list) := by
        simp [CommandRunner.realtimeArgv, hroot, helev]
      refine ⟨?_, ?_, ?_⟩
      · rw [hrr]; exact hthread _
      · rw [hra]; intro h; cases h
      · intro argv hargv
        rw [hra] at hargv
        have hargv' : elevation_cmd.getD [] ++ cmd_list = argv := by
          injection hargv
        subst hargv'
        exact ⟨fun lines code h => by rw [hrr]; exact hok _ lines code h,
               fun pls msg h => by rw [hrr]; exact hfail _ pls msg h⟩
    · have helev' : pyTruthyList elevation_cmd = false := Bool.eq_false_iff.mpr helev
      have hrr : CommandRunner.run_realtime spawn elevation_cmd uid cmd_list require_root
          = [Event.finished (-1)] := by
        simp [CommandRunner.run_realtime, hroot, helev']
      have hra : CommandRunner.realtimeArgv elevation_cmd uid cmd_list require_root
          = none := by
        simp [CommandRunner.realtimeArgv, hroot, helev']
      refine ⟨⟨[], -1, by rw [hrr]; rfl, by intro e he; cases he⟩, fun _ => hrr, ?_⟩
      intro argv hargv
      rw [hra] at hargv
      cases hargv
  · have hroot' : (require_root && uid != 0) = false := Bool.eq_false_iff.mpr hroot
    have hrr : CommandRunner.run_realtime spawn elevation_cmd uid cmd_list require_root
        = CommandRunner.threadFunc spawn cmd_list := by
      simp [CommandRunner.run_realtime, hroot']
    have hra : CommandRunner.realtimeArgv elevation_cmd uid cmd_list require_root
        = some cmd_list := by
      simp [CommandRunner.realtimeArgv, hroot']
    refine ⟨?_, ?_, ?_⟩
    · rw [hrr]; exact hthread _
    · rw [hra]; intro h; cases h
    · intro argv hargv
      rw [hra] at hargv
      have hargv' : cmd_list = argv := by injection hargv
      subst hargv'
      exact ⟨fun lines code h => by rw [hrr]; exact hok _ lines code h,
             fun pls msg h => by rw [hrr]; exact hfail _ pls msg h⟩

/-- C7 witness: the exit-code clause applied to a concrete completed process. -/
theorem claim_C7_witness :
    CommandRunner.run_realtime spawnOkW (some ["pkexec"]) 1000 ["luet"] true
      = [" INFO installed\n"].map (fun l => Event.line (stripLogLevel l)) ++
          [Event.finished 0] :=
  (((claim_C7 spawnOkW (some ["pkexec"]) 1000 ["luet"] true).2.2
    (["pkexec"] ++ ["luet"]) rfl).1 [" INFO installed\n"] 0 rfl)

/-- C8: the GUI layer's duplicated runners coincide extensionally with the
core `CommandRunner` runners: same final argument vector, same raise/error
behaviour, same scheduled callbacks, same per-line stripping. -/
theorem claim_C8 :
    (∀ (run : SubprocModel) (elevation_cmd : Option (List String)) (uid : Nat)
        (cmd_list : List String) (require_root : Bool),
      SearchApp.run_command run elevation_cmd uid cmd_list require_root
        = CommandRunner.run_sync run elevation_cmd uid cmd_list require_root) ∧
    (∀ (spawn : SpawnModel) (argv : List String),
      SearchApp.threadFunc spawn argv = CommandRunner.threadFunc spawn argv) ∧
    (∀ (spawn : SpawnModel) (elevation_cmd : Option (List String)) (uid : Nat)
        (cmd_list : List String) (require_root : Bool),
      SearchApp.run_command_realtime spawn elevation_cmd uid cmd_list require_root
        = CommandRunner.run_realtime spawn elevation_cmd uid cmd_list require_root) :=
  ⟨fun _ _ _ _ _ => rfl, fun _ _ => rfl, fun _ _ _ _ _ => rfl⟩

/-- C9: from a fresh spinner, any number of `advance` calls (aliases
`next_frame`/`get_next_frame` included) keeps the frame index in `0..9`,
`get_current_frame` returns one of the ten frames without raising, and
`advance` returns the frame at `(previous index + 1) % 10`. -/
theorem claim_C9 (n : Nat) :
    (Spinner.stateAfter n).frame_index < 10 ∧
    (∃ f, Spinner.get_current_frame (Spinner.stateAfter n) = some f ∧ f ∈ Spinner.FRAMES) ∧
    (Spinner.advance (Spinner.stateAfter n)).2
      = Spinner.FRAMES[((Spinner.stateAfter n).frame_index + 1) % 10]? ∧
    Spinner.next_frame = Spinner.advance ∧
    Spinner.get_next_frame = Spinner.advance := by
  have hlen : Spinner.FRAMES.length = 10 := rfl
  have hlt : (Spinner.stateAfter n).frame_index < 10 := by
    cases n with
    | zero => decide
    | succ m =>
      show ((Spinner.stateAfter m).frame_index + 1) % Spinner.FRAMES.length < 10
      rw [hlen]
      exact Nat.mod_lt _ (by norm_num)
  refine ⟨hlt, ?_, ?_, rfl, rfl⟩
  · have h' : (Spinner.stateAfter n).frame_index < Spinner.FRAMES.length := by
      rw [hlen]; exact hlt
    exact ⟨Spinner.FRAMES[(Spinner.stateAfter n).frame_index],
      by simp [Spinner.get_current_frame, List.getElem?_eq_getElem h'],
      List.getElem_mem h'⟩
  · rfl

/-- C10: when the executable is missing (`FileNotFoundError`) and the
elevation precondition holds, `run_sync` returns a result object with
`returncode = 1`, empty stdout and the error message as stderr, instead of
propagating the exception. -/
theorem claim_C10 (run : SubprocModel) (elevation_cmd : Option (List String))
    (uid : Nat) (cmd_list : List String) (require_root : Bool) (msg : String) :
    (require_root = true → uid ≠ 0 → pyTruthyList elevation_cmd = true →
      run (elevation_cmd.getD [] ++ cmd_list) = SubprocOutcome.fileNotFound msg →
      CommandRunner.run_sync run elevation_cmd uid cmd_list require_root
        = Except.ok ⟨1, "", msg⟩) ∧
    (require_root = false ∨ uid = 0 →
      run cmd_list = SubprocOutcome.fileNotFound msg →
      CommandRunner.run_sync run elevation_cmd uid cmd_list require_root
        = Except.ok ⟨1, "", msg⟩) := by
  constructor
  · intro hr hu he hrun
    subst hr
    have hb : (uid != 0) = true := by simpa using hu
    simp [CommandRunner.run_sync, hb, he, CommandRunner.syncExec, hrun]
  · intro h hrun
    rcases h with h | h
    · subst h
      simp [CommandRunner.run_sync, CommandRunner.syncExec, hrun]
    · subst h
      simp [CommandRunner.run_sync, CommandRunner.syncExec, hrun]

/-- C10 witness: a concrete missing executable, without root. -/
theorem claim_C10_witness :
    CommandRunner.run_sync runFnfW none 0 ["nota"] false
      = Except.ok ⟨1, "", "[Errno 2] No such file or directory"⟩ :=
  (claim_C10 runFnfW none 0 ["nota"] false "[Errno 2] No such file or directory").2
    (Or.inr rfl) rfl

/-- C4 counterexample: `is_package_hidden("entity", "foo")` is `True` although
`"entity/foo"` is not a key of the hidden-packages table. -/
theorem claim_C4_counterexample :
    PackageFilter.is_package_hidden "entity" "foo" = true ∧
    PackageFilter.get_hidden_packages.lookup "entity/foo" = none := by
  constructor
  · rfl
  · rfl

/-- C4 (amended): `is_package_hidden(category, name)` is `True` iff the
category is the literal `"entity"` or `"category/name"` is a key of the
hidden-packages table. -/
theorem claim_C4_amended (category name : String) :
    PackageFilter.is_package_hidden category name = true ↔
      category = "entity" ∨
        (PackageFilter.get_hidden_packages.lookup (category ++ "/" ++ name)).isSome = true := by
  unfold PackageFilter.is_package_hidden
  by_cases h : category = "entity"
  · simp [h]
  · simp [h]

/-- Looking a key up after a Python dict assignment: the assigned key maps to
the new value, every other key is unchanged. -/
theorem dictGet_dictSet (d : PyDict) (k k' : String) (v : Json) :
    dictGet (dictSet d k v) k' = if k' = k then some v else dictGet d k' := by
  induction d with
  | nil =>
    by_cases h : k' = k
    · subst h
      simp [dictSet, dictGet]
    · have hb : (k == k') = false := beq_eq_false_iff_ne.mpr (fun e => h e.symm)
      simp [dictSet, dictGet, hb, h]
  | cons hd tl ih =>
    obtain ⟨k₀, v₀⟩ := hd
    by_cases h₀ : k₀ = k
    · subst h₀
      by_cases h' : k' = k₀
      · subst h'
        simp [dictSet, dictGet]
      · have hb : (k₀ == k') = false := beq_eq_false_iff_ne.mpr (fun e => h' e.symm)
        simp [dictSet, dictGet, hb, h']
    · have hb₀ : (k₀ == k) = false := beq_eq_false_iff_ne.mpr h₀
      by_cases h' : k' = k₀
      · subst h'
        have hne : ¬ (k' = k) := h₀
        simp [dictSet, dictGet, hb₀, hne]
      · have hb' : (k₀ == k') = false := beq_eq_false_iff_ne.mpr (fun e => h' e.symm)
        simp [dictSet, dictGet, hb₀, hb', ih]

/-- The fields `_enrich_package_info` guarantees on its result: `category` and
`name` are untouched, the five enrichment keys are present, and
`is_actually_installed` is exactly the installed-dict membership of the
`"category/name"` key. -/
theorem enrich_fields (fmt : PyFormat) (pa : Bool) (verGT : VersionCompare)
    (pkg : PyDict) (installed : PyDict) :
    dictGet (SearchProcessor._enrich_package_info fmt pa verGT pkg installed) "category"
      = dictGet pkg "category" ∧
    dictGet (SearchProcessor._enrich_package_info fmt pa verGT pkg installed) "name"
      = dictGet pkg "name" ∧
    (dictGet (SearchProcessor._enrich_package_info fmt pa verGT pkg installed)
      "upgrade_symbol").isSome = true ∧
    dictGet (SearchProcessor._enrich_package_info fmt pa verGT pkg installed)
      "is_actually_installed"
      = some (Json.bool (dictGet installed
          (fmt ((dictGet pkg "category").getD (Json.str "")) ++ "/" ++
           fmt ((dictGet pkg "name").getD (Json.str "")))).isSome) ∧
    (dictGet (SearchProcessor._enrich_package_info fmt pa verGT pkg installed)
      "installed_version").isSome = true ∧
    (dictGet (SearchProcessor._enrich_package_info fmt pa verGT pkg installed)
      "available_version").isSome = true ∧
    (dictGet (SearchProcessor._enrich_package_info fmt pa verGT pkg installed)
      "protected").isSome = true := by
  unfold SearchProcessor._enrich_package_info
  cases hlk : dictGet installed
      (fmt ((dictGet pkg "category").getD (Json.str "")) ++ "/" ++
       fmt ((dictGet pkg "name").getD (Json.str ""))) with
  | none =>
    simp only [hlk]
    refine ⟨?_, ?_, ?_, ?_, ?_, ?_, ?_⟩ <;>
      simp [dictGet_dictSet]
  | some iv =>
    simp only [hlk]
    cases pa with
    | false =>
      simp only [Bool.false_eq_true, if_false]
      refine ⟨?_, ?_, ?_, ?_, ?_, ?_, ?_⟩ <;>
        simp [dictGet_dictSet]
    | true =>
      simp only [if_true]
      split
      · split
        · refine ⟨?_, ?_, ?_, ?_, ?_, ?_, ?_⟩ <;>
            simp [dictGet_dictSet]
        · refine ⟨?_, ?_, ?_, ?_, ?_, ?_, ?_⟩ <;>
            simp [dictGet_dictSet]
      · refine ⟨?_, ?_, ?_, ?_, ?_, ?_, ?_⟩ <;>
          simp [dictGet_dictSet]

/-- Every element of the filter-enrich loop's output is the enrichment of an
input package and is not hidden. -/
theorem mem_processPkgs (fmt : PyFormat) (pa : Bool) (verGT : VersionCompare)
    (pkgs : List PyDict) (installed : PyDict) (p : PyDict)
    (h : p ∈ SearchProcessor.processPkgs fmt pa verGT pkgs installed) :
    ∃ pkg0 ∈ pkgs,
      p = SearchProcessor._enrich_package_info fmt pa verGT pkg0 installed ∧
      PackageFilter.is_package_hidden_val fmt
        ((dictGet p "category").getD (Json.str ""))
        ((dictGet p "name").getD (Json.str "")) = false := by
  induction pkgs with
  | nil => cases h
  | cons pkg rest ih =>
    unfold SearchProcessor.processPkgs at h
    dsimp only at h
    by_cases hhid : PackageFilter.is_package_hidden_val fmt
        ((dictGet (SearchProcessor._enrich_package_info fmt pa verGT pkg installed)
          "category").getD (Json.str ""))
        ((dictGet (SearchProcessor._enrich_package_info fmt pa verGT pkg installed)
          "name").getD (Json.str "")) = false
    · simp only [hhid, Bool.not_false, if_true, List.mem_cons] at h
      rcases h with h | h
      · exact ⟨pkg, List.mem_cons_self _ _, h, by rw [h]; exact hhid⟩
      · obtain ⟨pkg0, hmem, hp⟩ := ih h
        exact ⟨pkg0, List.mem_cons_of_mem _ hmem, hp⟩
    · have hhid' : PackageFilter.is_package_hidden_val fmt
          ((dictGet (SearchProcessor._enrich_package_info fmt pa verGT pkg installed)
            "category").getD (Json.str ""))
          ((dictGet (SearchProcessor._enrich_package_info fmt pa verGT pkg installed)
            "name").getD (Json.str "")) = true := by
        revert hhid
        cases PackageFilter.is_package_hidden_val fmt
            ((dictGet (SearchProcessor._enrich_package_info fmt pa verGT pkg installed)
              "category").getD (Json.str ""))
            ((dictGet (SearchProcessor._enrich_package_info fmt pa verGT pkg installed)
              "name").getD (Json.str "")) <;> simp
      simp only [hhid', Bool.not_true, Bool.false_eq_true, if_false] at h
      obtain ⟨pkg0, hmem, hp⟩ := ih h
      exact ⟨pkg0, List.mem_cons_of_mem _ hmem, hp⟩

/-- C5 counterexample: for the error-free search result `{"packages": 3}` the
code raises `TypeError` (iterating an `int`), modelled by `none`, instead of
returning an enriched result. -/
theorem claim_C5_counterexample :
    hasKey [("packages", Json.num 3)] "error" = false ∧
    SearchProcessor.process_search_results fmtW true verGTW
      [("packages", Json.num 3)] [] = none :=
  ⟨rfl, rfl⟩

/-- C5 (amended): for every error-free search result whose `"packages"` entry
iterates as a list of package dictionaries, `process_search_results` replaces
that entry by the enriched packages with all hidden packages removed; every
surviving package carries the five enrichment fields, with
`is_actually_installed` true exactly when the package's `"category/name"` key
is in the installed-packages dictionary; a result containing `"error"` is
returned unchanged. -/
theorem claim_C5 (fmt : PyFormat) (hfmt : ∀ s, fmt (Json.str s) = s)
    (pa : Bool) (verGT : VersionCompare) (search_result installed : PyDict) :
    (hasKey search_result "error" = true →
      SearchProcessor.process_search_results fmt pa verGT search_result installed
        = some search_result) ∧
    (∀ pkgs, hasKey search_result "error" = false →
      pyIterObjs ((dictGet search_result "packages").getD (Json.arr [])) = some pkgs →
      SearchProcessor.process_search_results fmt pa verGT search_result installed
        = some (dictSet search_result "packages"
            (Json.arr ((SearchProcessor.processPkgs fmt pa verGT pkgs installed).map
              Json.obj))) ∧
      ∀ p ∈ SearchProcessor.processPkgs fmt pa verGT pkgs installed,
        PackageFilter.is_package_hidden_val fmt
          ((dictGet p "category").getD (Json.str ""))
          ((dictGet p "name").getD (Json.str "")) = false ∧
        (dictGet p "upgrade_symbol").isSome = true ∧
        (dictGet p "is_actually_installed").isSome = true ∧
        (dictGet p "installed_version").isSome = true ∧
        (dictGet p "available_version").isSome = true ∧
        (dictGet p "protected").isSome = true ∧
        ∀ c n, dictGet p "category" = some (Json.str c) →
          dictGet p "name" = some (Json.str n) →
          (dictGet p "is_actually_installed" = some (Json.bool true) ↔
            hasKey installed (c ++ "/" ++ n) = true)) := by
  constructor
  · intro he
    simp [SearchProcessor.process_search_results, he]
  · intro pkgs he hiter
    constructor
    · simp [SearchProcessor.process_search_results, he, hiter]
    · intro p hp
      obtain ⟨pkg0, hmem, hpe, hhid⟩ := mem_processPkgs fmt pa verGT pkgs installed p hp
      have hf := enrich_fields fmt pa verGT pkg0 installed
      subst hpe
      refine ⟨hhid, hf.2.2.1, ?_, hf.2.2.2.2.1, hf.2.2.2.2.2.1, hf.2.2.2.2.2.2, ?_⟩
      · rw [hf.2.2.2.1]
        rfl
      · intro c n hc hn
        have hc0 : dictGet pkg0 "category" = some (Json.str c) := hf.1.symm.trans hc
        have hn0 : dictGet pkg0 "name" = some (Json.str n) := hf.2.1.symm.trans hn
        rw [hf.2.2.2.1, hc0, hn0]
        simp only [Option.getD_some, hfmt]
        constructor
        · intro hsome
          have hb : (dictGet installed (c ++ "/" ++ n)).isSome = true := by
            have := Option.some.inj hsome
            have := Json.bool.inj this
            exact this
          exact hb
        · intro hk
          rw [show (dictGet installed (c ++ "/" ++ n)).isSome = true from hk]

/-- C5 witness: concrete search result with one installed package. -/
theorem claim_C5_witness :
    SearchProcessor.process_search_results fmtW true verGTW srW installedW
      = some (dictSet srW "packages"
          (Json.arr ((SearchProcessor.processPkgs fmtW true verGTW [pkgW] installedW).map
            Json.obj))) ∧
    (dictGet enrichedW "is_actually_installed" = some (Json.bool true) ↔
      hasKey installedW ("apps" ++ "/" ++ "firefox") = true) := by
  have h := (claim_C5 fmtW (fun _ => rfl) true verGTW srW installedW).2 [pkgW] rfl rfl
  refine ⟨h.1, ?_⟩
  have hmem : enrichedW ∈ SearchProcessor.processPkgs fmtW true verGTW [pkgW] installedW := by
    rw [show SearchProcessor.processPkgs fmtW true verGTW [pkgW] installedW
      = [enrichedW] from rfl]
    exact List.mem_singleton_self _
  exact (h.2 enrichedW hmem).2.2.2.2.2.2 "apps" "firefox" rfl rfl

/-- C3 counterexample: with exit code 0 and the whitespace-only stdout `" "`
(which is not valid JSON, `loadsNoneW` raises on every input), the claim
prescribes an error dictionary, but the code strips the output to empty first
and returns `{"packages": []}`. -/
theorem claim_C3_counterexample :
    PackageSearcher.run_search_core loadsNoneW runnerWsW ["luet", "search", "-o", "json"]
      = [("packages", Json.arr [])] ∧
    (PackageSearcher.run_search_core loadsNoneW runnerWsW
      ["luet", "search", "-o", "json"]).map Prod.fst = ["packages"] ∧
    (" " : String) ≠ "" ∧
    loadsNoneW " " = none := by
  refine ⟨rfl, rfl, by decide, rfl⟩

/-- C3 (amended): `run_search_core` always returns a dictionary with exactly
one of the keys `"error"` / `"packages"` and never raises: `"error"` when the
runner raises, the return code is non-zero, or the whitespace-stripped stdout
is non-empty but not valid JSON; `{"packages": []}` when the stripped stdout
is empty, the decoded JSON is not an object, or its `"packages"` entry is
absent or `null`; and `{"packages": v}` for the decoded `"packages"` value `v`
otherwise. -/
theorem claim_C3 (loads : JsonLoads)
    (runner : List String → Except String SyncResult) (cmd : List String) :
    ((PackageSearcher.run_search_core loads runner cmd).map Prod.fst = ["error"] ∨
     (PackageSearcher.run_search_core loads runner cmd).map Prod.fst = ["packages"]) ∧
    (∀ e, runner cmd = Except.error e →
      PackageSearcher.run_search_core loads runner cmd
        = [("error", Json.str "Error executing the search command")]) ∧
    (∀ res, runner cmd = Except.ok res →
      (res.returncode ≠ 0 →
        PackageSearcher.run_search_core loads runner cmd
          = [("error", Json.str "Error executing the search command")]) ∧
      (res.returncode = 0 → pyStrip res.stdout = "" →
        PackageSearcher.run_search_core loads runner cmd
          = [("packages", Json.arr [])]) ∧
      (res.returncode = 0 → pyStrip res.stdout ≠ "" →
        (loads (pyStrip res.stdout) = none →
          PackageSearcher.run_search_core loads runner cmd
            = [("error", Json.str "Invalid JSON output")]) ∧
        (∀ fields, loads (pyStrip res.stdout) = some (Json.obj fields) →
          ((dictGet fields "packages" = none ∨ dictGet fields "packages" = some Json.null) →
            PackageSearcher.run_search_core loads runner cmd
              = [("packages", Json.arr [])]) ∧
          (∀ v, dictGet fields "packages" = some v → v ≠ Json.null →
            PackageSearcher.run_search_core loads runner cmd = [("packages", v)])) ∧
        (∀ d, loads (pyStrip res.stdout) = some d → (∀ fields, d ≠ Json.obj fields) →
          PackageSearcher.run_search_core loads runner cmd
            = [("packages", Json.arr [])]))) := by
  refine ⟨?_, ?_, ?_⟩
  · cases hrun : runner cmd with
    | error e => exact Or.inl (by simp [PackageSearcher.run_search_core, hrun])
    | ok res =>
      by_cases hrc : (res.returncode != 0) = true
      · exact Or.inl (by simp [PackageSearcher.run_search_core, hrun, hrc])
      · have hrc' : (res.returncode != 0) = false := Bool.eq_false_iff.mpr hrc
        by_cases hout : (pyStrip res.stdout == "") = true
        · exact Or.inr (by simp [PackageSearcher.run_search_core, hrun, hrc', hout])
        · have hout' : (pyStrip res.stdout == "") = false := Bool.eq_false_iff.mpr hout
          cases hl : loads (pyStrip res.stdout) with
          | none =>
            exact Or.inl (by simp [PackageSearcher.run_search_core, hrun, hrc', hout', hl])
          | some d =>
            cases d with
            | obj fields =>
              cases hpk : dictGet fields "packages" with
              | none =>
                exact Or.inr
                  (by simp [PackageSearcher.run_search_core, hrun, hrc', hout', hl, hpk])
              | some v =>
                cases v with
                | null =>
                  exact Or.inr
                    (by simp [PackageSearcher.run_search_core, hrun, hrc', hout', hl, hpk])
                | bool b =>
                  exact Or.inr
                    (by simp [PackageSearcher.run_search_core, hrun, hrc', hout', hl, hpk])
                | num n =>
                  exact Or.inr
                    (by simp [PackageSearcher.run_search_core, hrun, hrc', hout', hl, hpk])
                | str s =>
                  exact Or.inr
                    (by simp [PackageSearcher.run_search_core, hrun, hrc', hout', hl, hpk])
                | arr elems =>
                  exact Or.inr
                    (by simp [PackageSearcher.run_search_core, hrun, hrc', hout', hl, hpk])
                | obj fs =>
                  exact Or.inr
                    (by simp [PackageSearcher.run_search_core, hrun, hrc', hout', hl, hpk])
            | null => exact Or.inr (by simp [PackageSearcher.run_search_core, hrun, hrc', hout', hl])
            | bool b => exact Or.inr (by simp [PackageSearcher.run_search_core, hrun, hrc', hout', hl])
            | num n => exact Or.inr (by simp [PackageSearcher.run_search_core, hrun, hrc', hout', hl])
            | str s => exact Or.inr (by simp [PackageSearcher.run_search_core, hrun, hrc', hout', hl])
            | arr elems => exact Or.inr (by simp [PackageSearcher.run_search_core, hrun, hrc', hout', hl])
  · intro e he
    simp [PackageSearcher.run_search_core, he]
  · intro res hres
    refine ⟨?_, ?_, ?_⟩
    · intro hrc
      have hb : (res.returncode != 0) = true := bne_iff_ne.mpr hrc
      simp [PackageSearcher.run_search_core, hres, hb]
    · intro hrc hstrip
      have hb : (res.returncode != 0) = false := by simp [hrc]
      have hs : (pyStrip res.stdout == "") = true := beq_iff_eq.mpr hstrip
      simp [PackageSearcher.run_search_core, hres, hb, hs]
    · intro hrc hstrip
      have hb : (res.returncode != 0) = false := by simp [hrc]
      have hs : (pyStrip res.stdout == "") = false :=
        beq_eq_false_iff_ne.mpr hstrip
      refine ⟨?_, ?_, ?_⟩
      · intro hl
        simp [PackageSearcher.run_search_core, hres, hb, hs, hl]
      · intro fields hl
        constructor
        · intro hpk
          rcases hpk with hpk | hpk <;>
            simp [PackageSearcher.run_search_core, hres, hb, hs, hl, hpk]
        · intro v hpk hv
          cases v with
          | null => exact absurd rfl hv
          | bool b => simp [PackageSearcher.run_search_core, hres, hb, hs, hl, hpk]
          | num n => simp [PackageSearcher.run_search_core, hres, hb, hs, hl, hpk]
          | str s => simp [PackageSearcher.run_search_core, hres, hb, hs, hl, hpk]
          | arr elems => simp [PackageSearcher.run_search_core, hres, hb, hs, hl, hpk]
          | obj fs => simp [PackageSearcher.run_search_core, hres, hb, hs, hl, hpk]
      · intro d hl hnobj
        cases d with
        | obj fields => exact absurd rfl (hnobj fields)
        | null => simp [PackageSearcher.run_search_core, hres, hb, hs, hl]
        | bool b => simp [PackageSearcher.run_search_core, hres, hb, hs, hl]
        | num n => simp [PackageSearcher.run_search_core, hres, hb, hs, hl]
        | str s => simp [PackageSearcher.run_search_core, hres, hb, hs, hl]
        | arr elems => simp [PackageSearcher.run_search_core, hres, hb, hs, hl]

/-- C3 witness: the amended statement evaluated on concrete JSON output. -/
theorem claim_C3_witness :
    runnerJsonW ["luet"] = Except.ok ⟨0, "\x7b\"packages\": [1]\x7d", ""⟩ ∧
    PackageSearcher.run_search_core loadsObjW runnerJsonW ["luet"]
      = [("packages", Json.arr [Json.num 1])] := by
  have h := (claim_C3 loadsObjW runnerJsonW ["luet"]).2.2
    ⟨0, "\x7b\"packages\": [1]\x7d", ""⟩ rfl
  refine ⟨rfl, ?_⟩
  have h2 := (h.2.2 rfl (by decide)).2.1 [("packages", Json.arr [Json.num 1])] rfl
  exact h2.2 (Json.arr [Json.num 1]) rfl (by intro hh; cases hh)

/-- `strLe` agrees with the lexicographic order on strings. -/
theorem strLe_iff (a b : String) : strLe a b = true ↔ a ≤ b := by
  rw [String.le_iff_toList_le]
  show (!(decide (b.data < a.data))) = true ↔ a.data ≤ b.data
  rw [Bool.not_eq_true', decide_eq_false_iff_not]
  exact not_lt

/-- Totality of `strLe`: a failed comparison gives the reverse inequality. -/
theorem strLe_total_false {a b : String} (h : strLe a b = false) : b ≤ a := by
  have hd : decide (b.data < a.data) = true := by
    revert h
    unfold strLe
    cases decide (b.data < a.data) <;> simp
  have hlt : b.data < a.data := of_decide_eq_true hd
  rw [String.le_iff_toList_le]
  exact le_of_lt hlt

/-- Inserting into a list permutes consing onto it. -/
theorem insertSorted_perm (a : String) (l : List String) :
    List.Perm (insertSorted a l) (a :: l) := by
  induction l with
  | nil => exact List.Perm.refl _
  | cons b bs ih =>
    unfold insertSorted
    by_cases h : strLe a b = true
    · simp only [h, if_true]
      exact List.Perm.refl _
    · have h' : strLe a b = false := Bool.eq_false_iff.mpr h
      simp only [h', Bool.false_eq_true, if_false]
      exact (ih.cons b).trans (List.Perm.swap a b bs)

/-- `sortStrings` permutes its input. -/
theorem sortStrings_perm (l : List String) : List.Perm (sortStrings l) l := by
  induction l with
  | nil => exact List.Perm.refl _
  | cons a as ih => exact (insertSorted_perm a (sortStrings as)).trans (ih.cons a)

/-- Insertion preserves sortedness. -/
theorem sorted_insertSorted (a : String) {l : List String}
    (h : List.Sorted (· ≤ ·) l) : List.Sorted (· ≤ ·) (insertSorted a l) := by
  induction l with
  | nil => simp [insertSorted]
  | cons b bs ih =>
    unfold insertSorted
    by_cases hab : strLe a b = true
    · simp only [hab, if_true]
      rw [List.sorted_cons]
      refine ⟨?_, h⟩
      intro y hy
      rcases List.mem_cons.mp hy with rfl | hy
      · exact (strLe_iff a y).mp hab
      · exact le_trans ((strLe_iff a b).mp hab) ((List.sorted_cons.mp h).1 y hy)
    · have hab' : strLe a b = false := Bool.eq_false_iff.mpr hab
      simp only [hab', Bool.false_eq_true, if_false]
      rw [List.sorted_cons]
      have hbs := List.sorted_cons.mp h
      refine ⟨?_, ih hbs.2⟩
      intro y hy
      have hmem : y ∈ a :: bs := (insertSorted_perm a bs).mem_iff.mp hy
      rcases List.mem_cons.mp hmem with rfl | hybs
      · exact strLe_total_false hab'
      · exact hbs.1 y hybs

/-- `sortStrings` sorts. -/
theorem sortStrings_sorted (l : List String) :
    List.Sorted (· ≤ ·) (sortStrings l) := by
  induction l with
  | nil => simp [sortStrings]
  | cons a as ih => exact sorted_insertSorted a ih

/-- The dedup accumulator yields a duplicate-free list avoiding the seen set. -/
theorem dedupAux_spec (l : List String) : ∀ seen,
    (dedupAux l seen).Nodup ∧ ∀ x ∈ dedupAux l seen, seen.contains x = false := by
  induction l with
  | nil =>
    intro seen
    exact ⟨List.nodup_nil, fun x hx => absurd hx (List.not_mem_nil x)⟩
  | cons k ks ih =>
    intro seen
    unfold dedupAux
    by_cases h : seen.contains k = true
    · simp only [h, if_true]
      exact ih seen
    · have h' : seen.contains k = false := Bool.eq_false_iff.mpr h
      simp only [h', Bool.false_eq_true, if_false]
      constructor
      · rw [List.nodup_cons]
        refine ⟨?_, (ih (k :: seen)).1⟩
        intro hk
        have hc := (ih (k :: seen)).2 k hk
        simp [List.contains_cons] at hc
      · intro x hx
        rcases List.mem_cons.mp hx with rfl | hx
        · exact h'
        · have hc := (ih (k :: seen)).2 x hx
          simp only [List.contains_cons, Bool.or_eq_false_iff] at hc
          exact hc.2

/-- Every deduplicated element comes from the input list. -/
theorem mem_dedupAux {x : String} : ∀ {l seen : List String},
    x ∈ dedupAux l seen → x ∈ l := by
  intro l
  induction l with
  | nil => intro seen h; cases h
  | cons k ks ih =>
    intro seen h
    unfold dedupAux at h
    by_cases hc : seen.contains k = true
    · simp only [hc, if_true] at h
      exact List.mem_cons_of_mem _ (ih h)
    · have hc' : seen.contains k = false := Bool.eq_false_iff.mpr hc
      simp only [hc', Bool.false_eq_true, if_false] at h
      rcases List.mem_cons.mp h with rfl | h
      · exact List.mem_cons_self _ _
      · exact List.mem_cons_of_mem _ (ih h)

/-- C6: `_parse_reinstall_candidates` returns an ascending, duplicate-free
list, and every element is the `"category/name"` key derived (first `\S+/\S+`
token of the line, `":"`-suffix removed, `parts[-2]` as category, `parts[-1]`
truncated at its first `"-"` as name) from some line of the input. -/
theorem claim_C6 (output : String) :
    List.Sorted (· ≤ ·) (SystemChecker._parse_reinstall_candidates output) ∧
    (SystemChecker._parse_reinstall_candidates output).Nodup ∧
    ∀ s ∈ SystemChecker._parse_reinstall_candidates output,
      ∃ line ∈ splitCh '\n' output.data, parseLineCandidate line = some s := by
  have hdef : SystemChecker._parse_reinstall_candidates output
      = sortStrings (dedupKeys
          ((splitCh '\n' output.data).filterMap parseLineCandidate)) := rfl
  rw [hdef]
  refine ⟨sortStrings_sorted _, ?_, ?_⟩
  · exact ((sortStrings_perm _).nodup_iff).mpr
      (dedupAux_spec ((splitCh '\n' output.data).filterMap parseLineCandidate) []).1
  · intro s hs
    have h1 : s ∈ dedupKeys ((splitCh '\n' output.data).filterMap parseLineCandidate) :=
      (sortStrings_perm _).mem_iff.mp hs
    have h2 : s ∈ (splitCh '\n' output.data).filterMap parseLineCandidate :=
      mem_dedupAux h1
    exact List.mem_filterMap.mp h2

/-- C6 witness: a concrete oscheck output line yielding `apps/foo`. -/
theorem claim_C6_witness :
    ∃ line ∈ splitCh '\n' oscheckW.data, parseLineCandidate line = some "apps/foo" :=
  (claim_C6 oscheckW).2.2 "apps/foo" (by decide)

/-- C4 witness: the amended statement evaluated at a key of the table. -/
theorem claim_C4_witness :
    PackageFilter.is_package_hidden "repository" "livecd" = true :=
  (claim_C4_amended "repository" "livecd").mpr (Or.inr (by decide))

/-- C8 witness: the runner equivalence evaluated at concrete arguments. -/
theorem claim_C8_witness :
    SearchApp.run_command runOkW none 0 ["luet"] false
      = CommandRunner.run_sync runOkW none 0 ["luet"] false ∧
    SearchApp.run_command_realtime spawnOkW none 0 ["luet"] false
      = CommandRunner.run_realtime spawnOkW none 0 ["luet"] false :=
  ⟨claim_C8.1 runOkW none 0 ["luet"] false,
   claim_C8.2.2 spawnOkW none 0 ["luet"] false⟩

/-- C9 witness: the invariant evaluated after three advances. -/
theorem claim_C9_witness :
    (Spinner.stateAfter 3).frame_index < 10 ∧
    Spinner.next_frame = Spinner.advance :=
  ⟨(claim_C9 3).1, (claim_C9 3).2.2.2.1⟩
